import Mathlib

/-!
Shallow embedding of the Market-CSGO undercut repricing core
(`modules/price_manager.py`, `modules/api_client.py`).

Prices are modelled as exact rationals (the design notes of the spec call for
3-decimal fixed-point semantics); Python `int` truncation and `round`
half-to-even are modelled explicitly.  Remote calls are modelled by
response oracles (`ℕ → …` giving the response of each attempt), and the
bounded retry loops by structural recursion on the remaining attempts.
-/

namespace MarketUndercut

/-- Python `int(q)` applied to a float value: truncation toward zero. -/
def pyInt (q : ℚ) : ℤ := if 0 ≤ q then ⌊q⌋ else ⌈q⌉

/-- Python `round(q)`: round to nearest, ties to even. -/
def pyRound (q : ℚ) : ℤ :=
  if q - (⌊q⌋ : ℚ) < 1/2 then ⌊q⌋
  else if (1/2 : ℚ) < q - (⌊q⌋ : ℚ) then ⌊q⌋ + 1
  else if ⌊q⌋ % 2 = 0 then ⌊q⌋ else ⌊q⌋ + 1

/-- `ItemInfo` from `modules/price_manager.py` (lines 10-24). -/
structure ItemInfo where
  item_id : String
  market_hash_name : String
  current_price : ℚ
  best_price : ℚ
  position : ℤ
deriving DecidableEq

/-- `PriceManager._calculate_position` (price_manager.py lines 120-139):
position 1 when `current_price <= best_price`, otherwise
`max(2, int((current_price - best_price) / 0.01) + 1)`. -/
def calculate_position (current_price best_price : ℚ) : ℤ :=
  if current_price ≤ best_price then 1
  else max 2 (pyInt ((current_price - best_price) / (1/100)) + 1)

/-- The floor test inside `should_update_price` (price_manager.py lines
159-164): blocks only when a floor is configured and the candidate price is
strictly below it. -/
def floor_blocks (min_price : Option ℚ) (new_price : ℚ) : Bool :=
  match min_price with
  | some m => decide (new_price < m)
  | none => false

/-- `PriceManager.should_update_price` (price_manager.py lines 141-170).
The configured floor (`config.get_min_price`) is passed as `min_price`.
Returns the pair `(should_update, new_price)` exactly as the source does. -/
def should_update_price (min_price : Option ℚ) (item : ItemInfo) :
    Bool × Option ℚ :=
  if item.position = 1 then (false, none)
  else if floor_blocks min_price (item.best_price - 1/100) then (false, none)
  else if item.best_price - 1/100 ≥ item.current_price then (false, none)
  else (true, some (item.best_price - 1/100))

/-- Response of `api.get_best_offer_for_item`: a `success` flag and the
`data` list of raw integer offer prices (thousandths of a currency unit). -/
structure OfferResponse where
  success : Bool
  data : List ℤ
deriving DecidableEq

/-- Best-price extraction in `get_my_items_info` (price_manager.py lines
77-92): on success with a truthy (nonempty) `data` list the best price is
the first raw price divided by 1000; otherwise fall back to the item and its own
current price. -/
def best_price_of (resp : OfferResponse) (current_price : ℚ) : ℚ :=
  match resp.success with
  | true =>
    match resp.data with
    | p :: _ => (p : ℚ) / 1000
    | [] => current_price
  | false => current_price

/-- One raw listing from `api.get_items_on_sale` as read by
`get_my_items_info` (price_manager.py lines 66-71). -/
structure RawItem where
  item_id : String
  market_hash_name : String
  price : ℚ
deriving DecidableEq

/-- Per-item body of the loop in `get_my_items_info` (price_manager.py
lines 66-113): query the best offer oracle by hash name, fall back to the
current price when unavailable, and compute the position. -/
def build_item_info (offers : String → OfferResponse) (raw : RawItem) :
    ItemInfo :=
  let current_price := raw.price
  let bp := best_price_of (offers raw.market_hash_name) current_price
  { item_id := raw.item_id
    market_hash_name := raw.market_hash_name
    current_price := current_price
    best_price := bp
    position := calculate_position current_price bp }

/-- `PriceManager.get_my_items_info` (price_manager.py lines 41-118),
restricted to its per-item work: every raw listing yields exactly one
`ItemInfo` (none is dropped). -/
def get_my_items_info (offers : String → OfferResponse)
    (raws : List RawItem) : List ItemInfo :=
  raws.map (build_item_info offers)

/-- A JSON response body as consumed by the retry loops: the `success`
flag and the `error` string (`response.get("error", …)`). -/
structure ApiResponse where
  success : Bool
  error : String
deriving DecidableEq

/-- `max_retries` constant used by both retry loops (price_manager.py line
196, api_client.py line 24). -/
def max_retries : ℕ := 3

/-- `retry_delay` constant in seconds (price_manager.py line 197,
api_client.py line 42). -/
def retry_delay : ℕ := 10

/-- Observable outcome of one call of `update_item_price`: final success
flag, number of `set_price` attempts actually made, the sleep durations
performed, and the raw error payload printed on failure (price_manager.py
line 222), if any. -/
structure UpdateResult where
  success : Bool
  attempts : ℕ
  waits : List ℕ
  surfaced : Option ApiResponse
deriving DecidableEq

/-- The retry loop of `PriceManager.update_item_price` (price_manager.py
lines 195-225), by recursion on the remaining attempts; `attempt` is the
0-based loop counter.  On success return; on a `"too_often"` error before
the last attempt, sleep `retry_delay` and retry; otherwise fail, surfacing
the raw response.  The fuel-0 case is the dead `return False` after the
loop (line 225). -/
def update_attempts (responses : ℕ → ApiResponse) :
    ℕ → ℕ → UpdateResult
  | 0, attempt => { success := false, attempts := attempt, waits := [],
                    surfaced := none }
  | remaining + 1, attempt =>
    let r := responses attempt
    if r.success then
      { success := true, attempts := attempt + 1, waits := [],
        surfaced := none }
    else if r.error = "too_often" ∧ attempt < max_retries - 1 then
      let rest := update_attempts responses remaining (attempt + 1)
      { rest with waits := retry_delay :: rest.waits }
    else
      { success := false, attempts := attempt + 1, waits := [],
        surfaced := some r }

/-- `PriceManager.update_item_price` with confirmation already granted
(`auto_confirm` or an operator yes): runs the retry loop from attempt 0. -/
def update_item_price (responses : ℕ → ApiResponse) : UpdateResult :=
  update_attempts responses max_retries 0

/-- What one HTTP attempt inside `MarketAPI._make_request` can produce:
a parsed JSON body, a timeout/connection exception, or another
`RequestException` (HTTP 4xx/5xx). -/
inductive HttpOutcome where
  | ok (body : ApiResponse)
  | transient (msg : String)
  | httpError (msg : String)
deriving DecidableEq

/-- Observable outcome of `_make_request`: the returned dictionary
(`none` only for the dead fall-through after the loop), the number of
attempts made, and the sleeps performed. -/
structure RequestResult where
  result : Option ApiResponse
  attempts : ℕ
  waits : List ℕ
deriving DecidableEq

/-- The retry loop of `MarketAPI._make_request` (api_client.py lines
44-69): success returns the body; a timeout/connection error before the
last attempt sleeps `retry_delay` and retries, on the last attempt it
returns `{"success": False, "error": str(e)}`; any other request error
returns the same failure dictionary immediately with no retry. -/
def request_attempts (outcomes : ℕ → HttpOutcome) :
    ℕ → ℕ → RequestResult
  | 0, attempt => { result := none, attempts := attempt, waits := [] }
  | remaining + 1, attempt =>
    match outcomes attempt with
    | .ok body =>
      { result := some body, attempts := attempt + 1, waits := [] }
    | .transient msg =>
      if attempt < max_retries - 1 then
        let rest := request_attempts outcomes remaining (attempt + 1)
        { rest with waits := retry_delay :: rest.waits }
      else
        { result := some { success := false, error := msg },
          attempts := attempt + 1, waits := [] }
    | .httpError msg =>
      { result := some { success := false, error := msg },
        attempts := attempt + 1, waits := [] }

/-- `MarketAPI._make_request` with the default `max_retries = 3`. -/
def make_request (outcomes : ℕ → HttpOutcome) : RequestResult :=
  request_attempts outcomes max_retries 0

/-- Wire encoding of a price in `MarketAPI.set_price` (api_client.py line
155): `int(round(price * 1000))`. -/
def set_price_wire (price : ℚ) : ℤ := pyRound (price * 1000)

/-- Decoding of a raw offer price (price_manager.py line 85): divide the
integer by 1000. -/
def decode_offer_price (raw : ℤ) : ℚ := (raw : ℚ) / 1000

/-- The statistics dictionary built by `process_all_items`
(price_manager.py lines 239-245). -/
structure RunStats where
  total : ℕ
  updated : ℕ
  skipped : ℕ
  first_position : ℕ
  below_min : ℕ
deriving DecidableEq

/-- The `below_min` test in `process_all_items` (price_manager.py line
263): `if min_price and (item.best_price - 0.01) < min_price`.  Python
truthiness makes a floor of `0` falsy here. -/
def below_min_hit (min_price : Option ℚ) (best_price : ℚ) : Bool :=
  match min_price with
  | some m => decide (m ≠ 0) && decide (best_price - 1/100 < m)
  | none => false

/-- One iteration of the loop in `process_all_items` (price_manager.py
lines 247-264).  `min_price` is the floor store lookup and `upd` the
outcome of `update_item_price` for the given item and price (the
`(true, none)` branch of the match never arises, see
`should_update_price_shape`). -/
def process_item (min_price : String → Option ℚ)
    (upd : ItemInfo → ℚ → Bool) (stats : RunStats) (item : ItemInfo) :
    RunStats :=
  if item.position = 1 then
    { stats with first_position := stats.first_position + 1 }
  else
    match should_update_price (min_price item.market_hash_name) item with
    | (true, some new_price) =>
      if upd item new_price then
        { stats with updated := stats.updated + 1 }
      else
        { stats with skipped := stats.skipped + 1 }
    | _ =>
      if below_min_hit (min_price item.market_hash_name) item.best_price then
        { stats with skipped := stats.skipped + 1,
                     below_min := stats.below_min + 1 }
      else { stats with skipped := stats.skipped + 1 }

/-- `PriceManager.process_all_items` (price_manager.py lines 227-266) over
an already-evaluated list of listings: initialize the statistics with
`total = len(items)` and fold the per-item loop body. -/
def process_all_items (min_price : String → Option ℚ)
    (upd : ItemInfo → ℚ → Bool) (items : List ItemInfo) : RunStats :=
  items.foldl (process_item min_price upd)
    { total := items.length, updated := 0, skipped := 0,
      first_position := 0, below_min := 0 }

/-! Concrete example inputs used by witnesses and counterexamples. -/

/-- Floor store with a `$9.50` floor on hash name `"c"` only. -/
def exFloor : String → Option ℚ := fun n => if n = "c" then some (19/2) else none

/-- Update oracle where every confirmed submission succeeds. -/
def exUpd : ItemInfo → ℚ → Bool := fun _ _ => true

/-- A listing already in first position (`$5.00` vs best `$5.00`). -/
def exFirst : ItemInfo := ⟨"1", "a", 5, 5, 1⟩

/-- A listing that updates: `$10.00` vs best `$9.50`, no floor. -/
def exUpdates : ItemInfo := ⟨"2", "b", 10, 19/2, 51⟩

/-- A listing blocked by the floor: `$10.00` vs best `$9.50`, floor
`$9.50` on its hash name. -/
def exBelow : ItemInfo := ⟨"3", "c", 10, 19/2, 51⟩

/-! Helper lemmas shared by the claim theorems. -/

lemma pyInt_of_nonneg {q : ℚ} (h : 0 ≤ q) : pyInt q = ⌊q⌋ := by
  simp [pyInt, h]

lemma spu_below_floor (item : ItemInfo) (m : ℚ)
    (h : item.best_price - 1/100 < m) :
    should_update_price (some m) item = (false, none) := by
  have hfb : floor_blocks (some m) (item.best_price - 1/100) = true :=
    decide_eq_true h
  unfold should_update_price
  rw [hfb]
  simp

lemma spu_of_first (mp : Option ℚ) (item : ItemInfo) (h : item.position = 1) :
    should_update_price mp item = (false, none) := by
  simp [should_update_price, h]

lemma should_update_price_shape (mp : Option ℚ) (item : ItemInfo) :
    should_update_price mp item = (false, none)
    ∨ should_update_price mp item
        = (true, some (item.best_price - 1/100)) := by
  unfold should_update_price
  split
  · exact Or.inl rfl
  · split
    · exact Or.inl rfl
    · split
      · exact Or.inl rfl
      · exact Or.inr rfl

lemma spu_update_eq (mp : Option ℚ) (item : ItemInfo) (p : ℚ)
    (h : should_update_price mp item = (true, some p)) :
    p = item.best_price - 1/100
      ∧ p < item.current_price ∧ item.position ≠ 1 := by
  unfold should_update_price at h
  split at h
  · simp at h
  · rename_i hpos
    split at h
    · simp at h
    · split at h
      · simp at h
      · rename_i himp
        have hp : p = item.best_price - 1/100 := by
          simpa [eq_comm] using congrArg Prod.snd h
        refine ⟨hp, ?_, hpos⟩
        rw [hp]
        exact lt_of_not_ge himp

/-- Claim C2: for every listing with a configured floor such that
`bestMarketPrice - 0.01` is strictly below the floor, the decision is never
`Update` (the source returns `(False, None)`, so no price submission is
attempted), no matter how much `currentPrice` exceeds `bestMarketPrice`. -/
theorem c2_floor_enforcement (item : ItemInfo) (m : ℚ)
    (h : item.best_price - 1/100 < m) :
    should_update_price (some m) item = (false, none) :=
  spu_below_floor item m h

/-- Witness for C2 at the concrete below-floor listing `exBelow`. -/
theorem c2_floor_enforcement_witness :
    should_update_price (some (19/2)) exBelow = (false, none) :=
  c2_floor_enforcement exBelow (19/2) (by norm_num [exBelow])

/-- Claim C3: whenever `should_update_price` answers `Update(newPrice)`
(the pair `(True, newPrice)`), `newPrice = bestMarketPrice - 0.01` and
`newPrice < currentPrice` strictly; and when the candidate price is equal
to or greater than `currentPrice` the result is the non-update outcome
`(False, None)` (`NoImprovement` in the spec), so no update is sent. -/
theorem c3_no_regression (mp : Option ℚ) (item : ItemInfo) :
    (∀ p : ℚ, should_update_price mp item = (true, some p) →
        p = item.best_price - 1/100 ∧ p < item.current_price)
    ∧ (item.best_price - 1/100 ≥ item.current_price →
        should_update_price mp item = (false, none)) := by
  constructor
  · intro p hp
    obtain ⟨h1, h2, _⟩ := spu_update_eq mp item p hp
    exact ⟨h1, h2⟩
  · intro himp
    rcases should_update_price_shape mp item with h | h
    · exact h
    · exfalso
      obtain ⟨_, h2, _⟩ := spu_update_eq mp item _ h
      linarith

/-- Witness for C3: a no-improvement listing yields `(False, None)`, and
the updating listing `exUpdates` yields the price `$9.49 = $9.50 - $0.01`,
strictly below its current `$10.00`. -/
theorem c3_no_regression_witness :
    should_update_price none ⟨"i", "x", 5, 6, 2⟩ = (false, none)
    ∧ ((949/100 : ℚ) = exUpdates.best_price - 1/100
        ∧ (949/100 : ℚ) < exUpdates.current_price) :=
  ⟨(c3_no_regression none ⟨"i", "x", 5, 6, 2⟩).2 (by norm_num),
   (c3_no_regression none exUpdates).1 (949/100)
     (by norm_num [should_update_price, floor_blocks, exUpdates])⟩

/-- Claim C4: the computed position is 1 iff
`currentPrice <= bestMarketPrice`; otherwise it equals
`max(2, floor((currentPrice - bestMarketPrice) / 0.01) + 1)`, which is at
least 2; and for fixed `bestMarketPrice`, increasing `currentPrice` never
decreases the position. -/
theorem c4_position_rule (c b : ℚ) :
    (calculate_position c b = 1 ↔ c ≤ b)
    ∧ (b < c → calculate_position c b = max 2 (⌊(c - b) / (1/100)⌋ + 1)
        ∧ 2 ≤ calculate_position c b)
    ∧ ∀ c' : ℚ, c ≤ c' → calculate_position c b ≤ calculate_position c' b := by
  have key : ∀ x : ℚ, b < x →
      calculate_position x b = max 2 (⌊(x - b) / (1/100)⌋ + 1) := by
    intro x hx
    unfold calculate_position
    rw [if_neg (not_le.mpr hx),
      pyInt_of_nonneg (div_nonneg (by linarith) (by norm_num))]
  refine ⟨?_, ?_, ?_⟩
  · constructor
    · intro h1
      by_contra hc
      push_neg at hc
      rw [key c hc] at h1
      omega
    · intro h
      unfold calculate_position
      rw [if_pos h]
  · intro hb
    refine ⟨key c hb, ?_⟩
    rw [key c hb]
    exact le_max_left _ _
  · intro c' hcc
    rcases le_or_lt c' b with h1 | h1
    · have h2 : c ≤ b := le_trans hcc h1
      unfold calculate_position
      rw [if_pos h2, if_pos h1]
    · rcases le_or_lt c b with h2 | h2
      · have hpos1 : calculate_position c b = 1 := by
          unfold calculate_position
          rw [if_pos h2]
        rw [hpos1, key c' h1]
        omega
      · rw [key c h2, key c' h1]
        have hfl : ⌊(c - b) / (1/100)⌋ ≤ ⌊(c' - b) / (1/100)⌋ :=
          Int.floor_le_floor
            ((div_le_div_iff_of_pos_right (by norm_num)).mpr (by linarith))
        omega

/-- Witness for C4 at `currentPrice = $10.00`, `bestMarketPrice = $9.50`:
the position follows the gap formula, is at least 2, and does not decrease
when the current price rises to `$11.00`. -/
theorem c4_position_rule_witness :
    (calculate_position 10 (19/2)
        = max 2 (⌊((10 : ℚ) - 19/2) / (1/100)⌋ + 1)
      ∧ 2 ≤ calculate_position 10 (19/2))
    ∧ calculate_position 10 (19/2) ≤ calculate_position 11 (19/2) :=
  ⟨(c4_position_rule 10 (19/2)).2.1 (by norm_num),
   (c4_position_rule 10 (19/2)).2.2 11 (by norm_num)⟩

lemma update_attempts_succ (rs : ℕ → ApiResponse) (remaining attempt : ℕ) :
    update_attempts rs (remaining + 1) attempt
      = if (rs attempt).success then
          { success := true, attempts := attempt + 1, waits := [],
            surfaced := none }
        else if (rs attempt).error = "too_often" ∧ attempt < max_retries - 1
        then
          { update_attempts rs remaining (attempt + 1) with
            waits :=
              retry_delay :: (update_attempts rs remaining (attempt + 1)).waits }
        else
          { success := false, attempts := attempt + 1, waits := [],
            surfaced := some (rs attempt) } := rfl

lemma request_attempts_succ (oc : ℕ → HttpOutcome) (remaining attempt : ℕ) :
    request_attempts oc (remaining + 1) attempt
      = match oc attempt with
        | .ok body =>
          { result := some body, attempts := attempt + 1, waits := [] }
        | .transient msg =>
          if attempt < max_retries - 1 then
            { request_attempts oc remaining (attempt + 1) with
              waits :=
                retry_delay ::
                  (request_attempts oc remaining (attempt + 1)).waits }
          else
            { result := some { success := false, error := msg },
              attempts := attempt + 1, waits := [] }
        | .httpError msg =>
          { result := some { success := false, error := msg },
            attempts := attempt + 1, waits := [] } := rfl

/-- Claim C5: a price submission whose every attempt returns the
`"too_often"` error is attempted exactly 3 times with a 10-second wait
between attempts and then reported as failed with the raw error payload
surfaced; any other application error fails immediately after a single
attempt with no retry. -/
theorem c5_rate_limit_retry_bound :
    (∀ rs : ℕ → ApiResponse, (∀ i, rs i = ⟨false, "too_often"⟩) →
        update_item_price rs
          = { success := false, attempts := 3, waits := [10, 10],
              surfaced := some ⟨false, "too_often"⟩ })
    ∧ (∀ rs : ℕ → ApiResponse, (rs 0).success = false →
        (rs 0).error ≠ "too_often" →
        update_item_price rs
          = { success := false, attempts := 1, waits := [],
              surfaced := some (rs 0) }) := by
  constructor
  · intro rs h
    have hrs : rs = fun _ => ⟨false, "too_often"⟩ := funext h
    subst hrs
    rfl
  · intro rs h1 h2
    rw [show update_item_price rs = update_attempts rs (2 + 1) 0 from rfl,
      update_attempts_succ, if_neg (by simp [h1]),
      if_neg (by simp [h2])]

/-- Witness for C5: the all-rate-limited oracle makes exactly 3 attempts
with two 10-second waits, while a different application error fails after
one attempt with no wait. -/
theorem c5_rate_limit_retry_bound_witness :
    update_item_price (fun _ => ⟨false, "too_often"⟩)
      = { success := false, attempts := 3, waits := [10, 10],
          surfaced := some ⟨false, "too_often"⟩ }
    ∧ update_item_price (fun _ => ⟨false, "bad_request"⟩)
      = { success := false, attempts := 1, waits := [],
          surfaced := some ⟨false, "bad_request"⟩ } :=
  ⟨c5_rate_limit_retry_bound.1 _ (fun _ => rfl),
   c5_rate_limit_retry_bound.2 _ rfl (by simp)⟩

/-- Claim C6: a Marketplace Client call whose every attempt fails with a
timeout or connection error is attempted 3 times with 10-second waits and
then returns (as a value) the failure dictionary carrying the last error;
any other request failure (HTTP 4xx/5xx) is returned immediately as a
failed result with no retry. -/
theorem c6_network_retry_policy :
    (∀ oc : ℕ → HttpOutcome, ∀ msg : ℕ → String,
        (∀ i, oc i = .transient (msg i)) →
        make_request oc
          = { result := some { success := false, error := msg 2 },
              attempts := 3, waits := [10, 10] })
    ∧ (∀ oc : ℕ → HttpOutcome, ∀ m : String, oc 0 = .httpError m →
        make_request oc
          = { result := some { success := false, error := m },
              attempts := 1, waits := [] }) := by
  constructor
  · intro oc msg h
    have hoc : oc = fun i => .transient (msg i) := funext h
    subst hoc
    rfl
  · intro oc m h
    rw [show make_request oc = request_attempts oc (2 + 1) 0 from rfl,
      request_attempts_succ, h]

/-- Witness for C6: an always-timing-out oracle yields 3 attempts, two
10-second waits and the last message; an HTTP error fails at once. -/
theorem c6_network_retry_policy_witness :
    make_request (fun _ => .transient "timed out")
      = { result := some { success := false, error := "timed out" },
          attempts := 3, waits := [10, 10] }
    ∧ make_request (fun _ => .httpError "404")
      = { result := some { success := false, error := "404" },
          attempts := 1, waits := [] } :=
  ⟨c6_network_retry_policy.1 _ (fun _ => "timed out") (fun _ => rfl),
   c6_network_retry_policy.2 _ "404" rfl⟩

lemma pyRound_intCast (n : ℤ) : pyRound (n : ℚ) = n := by
  unfold pyRound
  rw [Int.floor_intCast, sub_self, if_pos (by norm_num : (0 : ℚ) < 1/2)]

lemma pyRound_near (q : ℚ) : |(pyRound q : ℚ) - q| ≤ 1/2 := by
  have h0 : (⌊q⌋ : ℚ) ≤ q := Int.floor_le q
  have h1 : q < ⌊q⌋ + 1 := Int.lt_floor_add_one q
  unfold pyRound
  split_ifs with ha hb hc
  · rw [abs_le]
    constructor <;> linarith
  · push_cast
    rw [abs_le]
    constructor <;> linarith
  · rw [abs_le]
    constructor <;> linarith
  · push_cast
    rw [abs_le]
    constructor <;> linarith

/-- Claim C8: the wire encoding multiplies the price by 1000 and rounds to
the nearest integer, decoding divides by 1000; any 3-decimal price
round-trips, in particular `$114.391` encodes to `114391` and `114391`
decodes to `$114.391`; and the encoding is within `1/2` of `price * 1000`,
i.e. it is a round to nearest. -/
theorem c8_wire_encoding :
    (∀ n : ℤ, set_price_wire ((n : ℚ) / 1000) = n
      ∧ decode_offer_price n = (n : ℚ) / 1000)
    ∧ set_price_wire ((114391 : ℚ) / 1000) = 114391
    ∧ decode_offer_price 114391 = (114391 : ℚ) / 1000
    ∧ ∀ p : ℚ, |(set_price_wire p : ℚ) - p * 1000| ≤ 1/2 := by
  have hgen : ∀ n : ℤ, set_price_wire ((n : ℚ) / 1000) = n := by
    intro n
    unfold set_price_wire
    rw [div_mul_cancel₀ _ (by norm_num : (1000 : ℚ) ≠ 0)]
    exact pyRound_intCast n
  refine ⟨fun n => ⟨hgen n, rfl⟩, ?_, by norm_num [decode_offer_price],
    fun p => pyRound_near (p * 1000)⟩
  simpa using hgen 114391

/-- Claim C7: a successful best-offer query returning zero offers makes
the listing's best price fall back to its own current price, its position
is 1, and the cycle treats it as already first: no update is sent. -/
theorem c7_empty_offers_fallback (offers : String → OfferResponse)
    (raw : RawItem)
    (h : offers raw.market_hash_name = { success := true, data := [] }) :
    (build_item_info offers raw).best_price = raw.price
    ∧ (build_item_info offers raw).position = 1
    ∧ ∀ mp : Option ℚ,
        should_update_price mp (build_item_info offers raw)
          = (false, none) := by
  have hb : best_price_of (offers raw.market_hash_name) raw.price
      = raw.price := by
    rw [h]
    rfl
  have hpos : (build_item_info offers raw).position = 1 := by
    simp [build_item_info, hb, calculate_position]
  exact ⟨by simp [build_item_info, hb], hpos,
    fun mp => spu_of_first mp _ hpos⟩

/-- Witness for C7 at a `$5.00` listing whose best-offer query succeeds
with an empty offer list. -/
theorem c7_empty_offers_fallback_witness :
    (build_item_info (fun _ => ⟨true, []⟩) ⟨"r", "n", 5⟩).best_price = 5
    ∧ (build_item_info (fun _ => ⟨true, []⟩) ⟨"r", "n", 5⟩).position = 1
    ∧ should_update_price none
        (build_item_info (fun _ => ⟨true, []⟩) ⟨"r", "n", 5⟩)
        = (false, none) := by
  obtain ⟨h1, h2, h3⟩ :=
    c7_empty_offers_fallback (fun _ => ⟨true, []⟩) ⟨"r", "n", 5⟩ rfl
  exact ⟨h1, h2, h3 none⟩

/-- Claim C9: when the best-offer query for a listing returns a failed
result, the listing is not dropped (one `ItemInfo` per raw listing), its
best price silently falls back to its own current price giving position 1,
and the cycle counts it as first-position without attempting an update. -/
theorem c9_failed_query_fallback (offers : String → OfferResponse)
    (raw : RawItem) (d : List ℤ)
    (h : offers raw.market_hash_name = { success := false, data := d }) :
    (build_item_info offers raw).best_price = raw.price
    ∧ (build_item_info offers raw).position = 1
    ∧ (∀ raws : List RawItem,
        (get_my_items_info offers raws).length = raws.length)
    ∧ ∀ (mp : String → Option ℚ) (upd : ItemInfo → ℚ → Bool) (s : RunStats),
        process_item mp upd s (build_item_info offers raw)
          = { s with first_position := s.first_position + 1 } := by
  have hb : best_price_of (offers raw.market_hash_name) raw.price
      = raw.price := by
    rw [h]
    rfl
  have hpos : (build_item_info offers raw).position = 1 := by
    simp [build_item_info, hb, calculate_position]
  refine ⟨by simp [build_item_info, hb], hpos,
    fun raws => by simp [get_my_items_info], fun mp upd s => by
      simp [process_item, hpos]⟩

/-- Witness for C9 at a `$5.00` listing whose best-offer query fails. -/
theorem c9_failed_query_fallback_witness :
    (build_item_info (fun _ => ⟨false, []⟩) ⟨"r", "n", 5⟩).best_price = 5
    ∧ (build_item_info (fun _ => ⟨false, []⟩) ⟨"r", "n", 5⟩).position = 1
    ∧ (get_my_items_info (fun _ => ⟨false, []⟩) [⟨"r", "n", 5⟩]).length = 1
    ∧ process_item (fun _ => none) (fun _ _ => true)
        { total := 1, updated := 0, skipped := 0, first_position := 0,
          below_min := 0 }
        (build_item_info (fun _ => ⟨false, []⟩) ⟨"r", "n", 5⟩)
        = { total := 1, updated := 0, skipped := 0, first_position := 1,
            below_min := 0 } := by
  obtain ⟨h1, h2, h3, h4⟩ :=
    c9_failed_query_fallback (fun _ => ⟨false, []⟩) ⟨"r", "n", 5⟩ [] rfl
  exact ⟨h1, h2, h3 _, h4 _ _ _⟩

lemma process_item_counts (mp : String → Option ℚ)
    (upd : ItemInfo → ℚ → Bool) (s : RunStats) (a : ItemInfo) :
    (process_item mp upd s a).total = s.total
    ∧ (process_item mp upd s a).first_position
        + (process_item mp upd s a).updated + (process_item mp upd s a).skipped
      = s.first_position + s.updated + s.skipped + 1
    ∧ (process_item mp upd s a).below_min + s.skipped
        ≤ (process_item mp upd s a).skipped + s.below_min := by
  unfold process_item
  split
  · simp
    omega
  · split
    · split <;> simp <;> omega
    · split <;> simp <;> omega

lemma foldl_process_counts (mp : String → Option ℚ)
    (upd : ItemInfo → ℚ → Bool) :
    ∀ (items : List ItemInfo) (s0 : RunStats),
      (items.foldl (process_item mp upd) s0).total = s0.total
      ∧ (items.foldl (process_item mp upd) s0).first_position
          + (items.foldl (process_item mp upd) s0).updated
          + (items.foldl (process_item mp upd) s0).skipped
        = s0.first_position + s0.updated + s0.skipped + items.length
      ∧ (items.foldl (process_item mp upd) s0).below_min + s0.skipped
          ≤ (items.foldl (process_item mp upd) s0).skipped + s0.below_min
  | [], s0 => by
    simp only [List.foldl_nil, List.length_nil]
    exact ⟨trivial, by omega, by omega⟩
  | a :: rest, s0 => by
    have hstep := process_item_counts mp upd s0 a
    have ih := foldl_process_counts mp upd rest (process_item mp upd s0 a)
    simp only [List.foldl_cons, List.length_cons]
    omega

/-- Claim C10: every run of `process_all_items` increments exactly one of
first_position, updated, skipped per listing, so the returned statistics
satisfy `first_position + updated + skipped = total` and
`below_min ≤ skipped`. -/
theorem c10_stats_invariant (mp : String → Option ℚ)
    (upd : ItemInfo → ℚ → Bool) (items : List ItemInfo) :
    (process_all_items mp upd items).first_position
      + (process_all_items mp upd items).updated
      + (process_all_items mp upd items).skipped
      = (process_all_items mp upd items).total
    ∧ (process_all_items mp upd items).below_min
      ≤ (process_all_items mp upd items).skipped := by
  have h := foldl_process_counts mp upd items
    { total := items.length, updated := 0, skipped := 0,
      first_position := 0, below_min := 0 }
  unfold process_all_items
  dsimp only at h
  omega

lemma process_item_first (mp : String → Option ℚ) (upd : ItemInfo → ℚ → Bool)
    (s : RunStats) (a : ItemInfo) (ha : a.position = 1) :
    process_item mp upd s a
      = { s with first_position := s.first_position + 1 } := by
  simp [process_item, ha]

lemma process_item_updated (mp : String → Option ℚ)
    (upd : ItemInfo → ℚ → Bool) (s : RunStats) (b : ItemInfo) (pb : ℚ)
    (hb : should_update_price (mp b.market_hash_name) b = (true, some pb))
    (hbu : upd b pb = true) :
    process_item mp upd s b = { s with updated := s.updated + 1 } := by
  have hbpos : b.position ≠ 1 := (spu_update_eq _ _ _ hb).2.2
  unfold process_item
  rw [if_neg hbpos, hb]
  simp [hbu]

lemma process_item_below (mp : String → Option ℚ)
    (upd : ItemInfo → ℚ → Bool) (s : RunStats) (c : ItemInfo) (m : ℚ)
    (hc : c.position ≠ 1)
    (hm : mp c.market_hash_name = some m)
    (hm0 : m ≠ 0)
    (hcf : c.best_price - 1/100 < m) :
    process_item mp upd s c
      = { s with skipped := s.skipped + 1,
                 below_min := s.below_min + 1 } := by
  have hcspu : should_update_price (mp c.market_hash_name) c
      = (false, none) := by
    rw [hm]
    exact spu_below_floor c m hcf
  have hbm : below_min_hit (mp c.market_hash_name) c.best_price = true := by
    rw [hm]
    simp only [below_min_hit, Bool.and_eq_true, decide_eq_true_eq]
    exact ⟨hm0, hcf⟩
  unfold process_item
  rw [if_neg hc, hcspu]
  simp [hbm]

/-- Counterexample to C1 as stated: a concrete run over 3 listings where
`exFirst` is already first, `exUpdates` updates successfully and
`exBelow` is below the floor yields `skipped = 1`, not the claimed
`skipped = 2` — an AlreadyFirst listing is not counted as skipped by the
source (it hits `continue` before the skipped counter). -/
theorem c1_claimed_stats_false :
    exFirst.position = 1
    ∧ should_update_price (exFloor exUpdates.market_hash_name) exUpdates
        = (true, some (949/100))
    ∧ exUpd exUpdates (949/100) = true
    ∧ exBelow.position ≠ 1
    ∧ exFloor exBelow.market_hash_name = some (19/2)
    ∧ exBelow.best_price - 1/100 < 19/2
    ∧ (process_all_items exFloor exUpd [exFirst, exUpdates, exBelow]).skipped
        = 1
    ∧ ¬ (process_all_items exFloor exUpd
          [exFirst, exUpdates, exBelow]).skipped = 2 := by
  have hrun : process_all_items exFloor exUpd [exFirst, exUpdates, exBelow]
      = { total := 3, updated := 1, skipped := 1, first_position := 1,
          below_min := 1 } := by
    unfold process_all_items
    simp only [List.foldl_cons, List.foldl_nil, List.length_cons,
      List.length_nil]
    rw [process_item_first exFloor exUpd _ exFirst rfl,
      process_item_updated exFloor exUpd _ exUpdates (949/100)
        (by norm_num [should_update_price, floor_blocks, exUpdates, exFloor,
          (show ("b" : String) ≠ "c" by decide)]) rfl,
      process_item_below exFloor exUpd _ exBelow (19/2)
        (by norm_num [exBelow]) (by norm_num [exFloor, exBelow])
        (by norm_num) (by norm_num [exBelow])]
  refine ⟨rfl,
    by norm_num [should_update_price, floor_blocks, exUpdates, exFloor,
      (show ("b" : String) ≠ "c" by decide)],
    rfl, by norm_num [exBelow], by norm_num [exFloor, exBelow],
    by norm_num [exBelow], by rw [hrun], by rw [hrun]; norm_num⟩

/-- Claim C1 (amended): for every run of `process_all_items` over 3
listings where one is already in first position, one updates successfully
and one is below the floor, the statistics are total = 3,
first_position = 1, updated = 1, skipped = 1, below_min = 1; a listing
that is already first is counted only under first_position, not under
skipped, and skipped counts the non-update outcomes of the remaining
listings. -/
theorem c1_run_statistics (mp : String → Option ℚ)
    (upd : ItemInfo → ℚ → Bool) (a b c : ItemInfo) (pb m : ℚ)
    (ha : a.position = 1)
    (hb : should_update_price (mp b.market_hash_name) b = (true, some pb))
    (hbu : upd b pb = true)
    (hc : c.position ≠ 1)
    (hm : mp c.market_hash_name = some m)
    (hm0 : m ≠ 0)
    (hcf : c.best_price - 1/100 < m) :
    process_all_items mp upd [a, b, c]
      = { total := 3, updated := 1, skipped := 1, first_position := 1,
          below_min := 1 } := by
  unfold process_all_items
  simp only [List.foldl_cons, List.foldl_nil, List.length_cons,
    List.length_nil]
  rw [process_item_first mp upd _ a ha,
    process_item_updated mp upd _ b pb hb hbu,
    process_item_below mp upd _ c m hc hm hm0 hcf]

/-- Witness for the amended C1 at the concrete three-listing run. -/
theorem c1_run_statistics_witness :
    process_all_items exFloor exUpd [exFirst, exUpdates, exBelow]
      = { total := 3, updated := 1, skipped := 1, first_position := 1,
          below_min := 1 } :=
  c1_run_statistics exFloor exUpd exFirst exUpdates exBelow (949/100) (19/2)
    rfl
    (by norm_num [should_update_price, floor_blocks, exUpdates, exFloor,
      (show ("b" : String) ≠ "c" by decide)])
    rfl
    (by norm_num [exBelow])
    (by norm_num [exFloor, exBelow])
    (by norm_num)
    (by norm_num [exBelow])

end MarketUndercut
